import Mathlib

/-!
Verification of the esp32-nimble GATT model against its source.

Shallow embedding of the parts of the library the claims concern:
the AttributeValue byte buffer (include/nimble/AttributeValue.hpp),
the Service attribute-table compiler (src/Service.cpp), the Server
event dispatcher (src/Server.cpp), the local descriptor write access
handler (src/Descriptor.cpp), the remote descriptor synchronous
read/write bridge (src/RemoteDescriptor.cpp) and the characteristic
discovery back-fill (src/RemoteService.cpp).

Bytes are modelled as Nat, uint16 quantities as Nat with explicit
mod-2^16 arithmetic where wraparound matters, heap buffers as lists,
and a null pointer as Option.none.  Host-stack primitives
(ble_gatts_count_cfg, ble_gatts_add_svcs, ble_gattc_read_long, ...)
are external collaborators: their submission is modelled as succeeding
and the terminal status each submission is resumed with is an input of
the model (a list of statuses consumed in order).
-/

set_option linter.unusedVariables false

/-- BLE_ATT_ATTR_MAX_LEN: protocol-defined hard ceiling for an attribute value. -/
def BLE_ATT_ATTR_MAX_LEN : Nat := 512

/-- Model of the stored state of nimble::AttributeValue
(include/nimble/AttributeValue.hpp).  The heap buffer is modelled by an
optional list holding its meaningful prefix (the m_attr_len bytes of
content); none models a null m_attr_value pointer.  The allocation size
is tracked separately in m_capacity, as in the source. -/
structure AttributeValue where
  m_attr_value : Option (List Nat)
  m_attr_max_len : Nat
  m_attr_len : Nat
  m_capacity : Nat
  deriving Repr, DecidableEq

/-- AttributeValue(uint16_t init_len, uint16_t max_len): calloc a zeroed
buffer of init_len+1 bytes, clamp the max length to BLE_ATT_ATTR_MAX_LEN,
length 0, capacity init_len.  The constructor asserts 1 < init_len and
init_len < BLE_ATT_ATTR_MAX_LEN; those asserts appear as hypotheses of the
theorems that need them. -/
def AttributeValue.mkInit (init_len max_len : Nat) : AttributeValue :=
  { m_attr_value := some []
  , m_attr_max_len := min BLE_ATT_ATTR_MAX_LEN max_len
  , m_attr_len := 0
  , m_capacity := init_len }

/-- AttributeValue(const uint8_t *value, uint16_t len, uint16_t max_len):
delegates to the default constructor with init_len = len, then memcpy the
initial data into the buffer and set m_attr_len = len. -/
def AttributeValue.mkFromBuf (value : List Nat) (max_len : Nat) : AttributeValue :=
  let base := AttributeValue.mkInit value.length max_len
  { base with m_attr_value := some value, m_attr_len := value.length }

/-- length(): returns m_attr_len. -/
def AttributeValue.length (v : AttributeValue) : Nat := v.m_attr_len

/-- AttributeValue::setValue(const uint8_t *value, uint16_t len): fails if
len exceeds m_attr_max_len; otherwise grows the buffer when len exceeds m_capacity
(realloc, capacity becomes len), then copies the data and sets the length. -/
def AttributeValue.setValue (v : AttributeValue) (value : List Nat) : Bool × AttributeValue :=
  if value.length > v.m_attr_max_len then
    (false, v)
  else
    let cap := if value.length > v.m_capacity then value.length else v.m_capacity
    (true, { v with m_attr_value := some value, m_attr_len := value.length, m_capacity := cap })

/-- AttributeValue::append(const uint8_t *value, uint16_t len): no-op when
len < 1 or when m_attr_len + len exceeds m_attr_max_len; otherwise grows
the buffer if needed and appends at offset m_attr_len. -/
def AttributeValue.append (v : AttributeValue) (value : List Nat) : AttributeValue :=
  if value.length < 1 then v
  else if v.m_attr_len + value.length > v.m_attr_max_len then v
  else
    let new_len := v.m_attr_len + value.length
    let cap := if new_len > v.m_capacity then new_len else v.m_capacity
    { v with m_attr_value := some (v.m_attr_value.getD [] ++ value),
             m_attr_len := new_len,
             m_capacity := cap }

/-- AttributeValue::operator=(AttributeValue &&source) (dest != source
case): free the destination buffer, take every field of source, then set
only source.m_attr_value to nullptr; source.m_attr_len is left as it was.
Returns (new destination, new source). -/
def AttributeValue.moveAssign (dest source : AttributeValue) : AttributeValue × AttributeValue :=
  ( { m_attr_value := source.m_attr_value
    , m_attr_max_len := source.m_attr_max_len
    , m_attr_len := source.m_attr_len
    , m_capacity := source.m_capacity }
  , { source with m_attr_value := none } )

/-- AttributeValue(AttributeValue &&source): the move constructor forwards
to the move assignment on a default-member-initialized object. -/
def AttributeValue.moveCtor (source : AttributeValue) : AttributeValue × AttributeValue :=
  AttributeValue.moveAssign
    { m_attr_value := none, m_attr_max_len := 0, m_attr_len := 0, m_capacity := 0 } source

/-- The documented invariant of the bounded value buffer:
length between 0 and capacity, capacity at most max_length, max_length at
most 512. -/
def AttributeValue.wellBounded (v : AttributeValue) : Prop :=
  v.m_attr_len ≤ v.m_capacity ∧ v.m_capacity ≤ v.m_attr_max_len ∧ v.m_attr_max_len ≤ 512

instance (v : AttributeValue) : Decidable v.wellBounded := by
  unfold AttributeValue.wellBounded; infer_instance

/-! ### Local attribute tree and the Service attribute-table compiler -/

/-- NIMBLE_ATT_REMOVE_HIDE: removal-state tag for a hidden attribute (Server.hpp). -/
def NIMBLE_ATT_REMOVE_HIDE : Nat := 1

/-- NIMBLE_ATT_REMOVE_DELETE: removal-state tag for an attribute pending deletion (Server.hpp). -/
def NIMBLE_ATT_REMOVE_DELETE : Nat := 2

/-- BLE_HS_CONN_HANDLE_NONE: the sentinel connection handle (0xffff). -/
def BLE_HS_CONN_HANDLE_NONE : Nat := 65535

/-- A local Descriptor as the table compiler sees it: object identity (its
address, modelled as a Nat id), UUID, and the m_removed tristate tag. -/
structure Dsc where
  id : Nat
  uuid : Nat
  removed : Nat
  deriving Repr, DecidableEq

/-- A local Characteristic as the table compiler sees it: object identity,
UUID, m_removed tag and its owned m_dscVec. -/
structure Chr where
  id : Nat
  uuid : Nat
  removed : Nat
  dscVec : List Dsc
  deriving Repr, DecidableEq

/-- One entry of the flattened ble_gatt_dsc_def array: the uuid pointer
(none models the null-uuid sentinel) and the untyped context arg (the
descriptor object). -/
structure FlatDsc where
  uuid : Option Nat
  arg : Nat
  deriving Repr, DecidableEq

/-- One entry of the flattened ble_gatt_chr_def array: uuid pointer (none
models the null-uuid sentinel), untyped context arg (the characteristic
object) and the optional descriptor sub-array (none models a null
descriptors pointer). -/
structure FlatChr where
  uuid : Option Nat
  arg : Nat
  descriptors : Option (List FlatDsc)
  deriving Repr, DecidableEq

/-- The compiled ble_gatt_svc_def pair built by Service::start: the
characteristic array pointer of svc[0] (none models null) and the type
field of the terminating svc[1]. -/
structure SvcDef where
  characteristics : Option (List FlatChr)
  endType : Nat
  deriving Repr, DecidableEq

/-- A Service as the Server sees it: object identity, m_removed tag, the
owned m_chrVec and the compiled m_pSvcDef (none models null). -/
structure ServiceState where
  id : Nat
  removed : Nat
  chrVec : List Chr
  svcDef : Option SvcDef
  deriving Repr, DecidableEq

/-- The descriptor purge loop of Service::start (Service.cpp lines
165-178): erase descriptors tagged NIMBLE_ATT_REMOVE_DELETE from m_dscVec
(freeing them; their ids are returned second), keep the other removed
(hidden) ones while counting them (returned third, the loop removedCount). -/
def purgeDscVec : List Dsc → List Dsc × List Nat × Nat
  | [] => ([], [], 0)
  | d :: rest =>
    let r := purgeDscVec rest
    if d.removed > 0 then
      if d.removed == NIMBLE_ATT_REMOVE_DELETE then (r.1, d.id :: r.2.1, r.2.2)
      else (d :: r.1, r.2.1, r.2.2 + 1)
    else (d :: r.1, r.2.1, r.2.2)

/-- The characteristic purge loop of Service::start (Service.cpp lines
132-146): erase characteristics tagged NIMBLE_ATT_REMOVE_DELETE from
m_chrVec (freeing them; ids returned second), keep hidden ones while
counting them (returned third). -/
def purgeChrVec : List Chr → List Chr × List Nat × Nat
  | [] => ([], [], 0)
  | c :: rest =>
    let r := purgeChrVec rest
    if c.removed > 0 then
      if c.removed == NIMBLE_ATT_REMOVE_DELETE then (r.1, c.id :: r.2.1, r.2.2)
      else (c :: r.1, r.2.1, r.2.2 + 1)
    else (c :: r.1, r.2.1, r.2.2)

/-- The descriptor fill loop of Service::start (Service.cpp lines
188-198): one ble_gatt_dsc_def entry per descriptor of the purged
m_dscVec whose m_removed is 0, in order, wired to the descriptor access
callback with the descriptor itself as arg. -/
def buildDscEntries : List Dsc → List FlatDsc
  | [] => []
  | d :: rest =>
    if d.removed > 0 then buildDscEntries rest
    else { uuid := some d.uuid, arg := d.id } :: buildDscEntries rest

/-- The terminating ble_gatt_dsc_def entry: pDsc_a[numDscs].uuid = NULL. -/
def dscSentinel : FlatDsc := { uuid := none, arg := 0 }

/-- The terminating ble_gatt_chr_def entry: value-initialized, with
pChr_a[numChrs].uuid = NULL. -/
def chrSentinel : FlatChr := { uuid := none, arg := 0, descriptors := none }

/-- The per-characteristic body of the fill loop of Service::start
(Service.cpp lines 159-211) for a characteristic whose m_removed is 0:
purge its m_dscVec, build its descriptor array (null when no visible
descriptor remains, otherwise the entries followed by the sentinel), and
produce its ble_gatt_chr_def entry.  Returns the updated characteristic,
its entry, and the ids of the freed descriptors. -/
def compileChr (c : Chr) : Chr × FlatChr × List Nat :=
  let p := purgeDscVec c.dscVec
  let numDscs := p.1.length - p.2.2
  let flatDscs : Option (List FlatDsc) :=
    if numDscs == 0 then none
    else some (buildDscEntries p.1 ++ [dscSentinel])
  ({ c with dscVec := p.1 },
   { uuid := some c.uuid, arg := c.id, descriptors := flatDscs },
   p.2.1)

/-- The characteristic fill loop of Service::start (Service.cpp lines
159-211): characteristics with m_removed > 0 are skipped (their m_dscVec
is not touched), the rest are compiled in order.  Returns the updated
m_chrVec, the entries, and the freed descriptor ids. -/
def buildChrArray : List Chr → List Chr × List FlatChr × List Nat
  | [] => ([], [], [])
  | c :: rest =>
    if c.removed > 0 then
      let r := buildChrArray rest
      (c :: r.1, r.2.1, r.2.2)
    else
      let k := compileChr c
      let r := buildChrArray rest
      (k.1 :: r.1, k.2.1 :: r.2.1, k.2.2 ++ r.2.2)

/-- The rebuild branch of Service::start (Service.cpp lines 120-220), run
when m_pSvcDef is null: purge m_chrVec, and if no visible characteristic
remains set svc[0].characteristics to null, otherwise build the entry
array terminated by the sentinel; svc[1].type is set to 0.  Returns the
updated m_chrVec, the built definition, and the ids of all freed
(characteristic then descriptor) objects. -/
def Service.compile (chrVec : List Chr) : List Chr × SvcDef × List Nat :=
  let p := purgeChrVec chrVec
  let numChrs := p.1.length - p.2.2
  if numChrs == 0 then
    (p.1, { characteristics := none, endType := 0 }, p.2.1)
  else
    let b := buildChrArray p.1
    (b.1, { characteristics := some (b.2.1 ++ [chrSentinel]), endType := 0 }, p.2.1 ++ b.2.2)

/-- Service::start (Service.cpp lines 107-236): when the server change
flag is set and a compiled definition exists, discard it; when no
compiled definition exists (any more), rebuild it; then register it with
ble_gatts_count_cfg and ble_gatts_add_svcs (host-stack calls, modelled
as succeeding).  Returns the updated service, the ids of the freed
objects, and whether a rebuild was performed. -/
def Service.start (svcChanged : Bool) (s : ServiceState) : ServiceState × List Nat × Bool :=
  let s0 := if svcChanged && s.svcDef.isSome then { s with svcDef := none } else s
  match s0.svcDef with
  | some _ => (s0, [], false)
  | none =>
    let k := Service.compile s0.chrVec
    ({ s0 with chrVec := k.1, svcDef := some k.2.1 }, k.2.2, true)

/-- The erase loop of the already-removed branch of
Service::removeCharacteristic (Service.cpp lines 317-323): erase the
first element that is the given characteristic object. -/
def eraseChrById (chrId : Nat) : List Chr → List Chr
  | [] => []
  | c :: rest => if c.id == chrId then rest else c :: eraseChrById chrId rest

/-- Setting m_removed on the given characteristic object
(Service.cpp line 329). -/
def setChrRemoved (chrId tag : Nat) : List Chr → List Chr
  | [] => []
  | c :: rest =>
    if c.id == chrId then { c with removed := tag } :: rest
    else c :: setChrRemoved chrId tag rest

/-- Service::removeCharacteristic (Service.cpp lines 311-331): when the
characteristic is already removed, a repeated call with deleteChr erases
and frees it immediately and returns without signalling a change;
otherwise it only sets the removal tag (DELETE when deleteChr, HIDE
otherwise) and signals serviceChanged.  Returns the updated service, the
freed ids, and whether serviceChanged was called. -/
def Service.removeCharacteristic (svc : ServiceState) (chrId : Nat) (deleteChr : Bool) :
    ServiceState × List Nat × Bool :=
  match svc.chrVec.find? (fun c => c.id == chrId) with
  | none => (svc, [], false)
  | some c =>
    if c.removed > 0 then
      if deleteChr then
        ({ svc with chrVec := eraseChrById chrId svc.chrVec }, [chrId], false)
      else (svc, [], false)
    else
      let tag := if deleteChr then NIMBLE_ATT_REMOVE_DELETE else NIMBLE_ATT_REMOVE_HIDE
      ({ svc with chrVec := setChrRemoved chrId tag svc.chrVec }, [], true)

/-! ### Server event dispatcher (src/Server.cpp) -/

/-- The observable Server state: the started and change flags, the
connected-peer vector, the indicate-wait array (entries hold connection
handles, free slots hold BLE_HS_CONN_HANDLE_NONE), and the owned
services.  freed is the ghost log of object ids freed so far and
registrations the ghost count of host-stack table registrations
(ble_gatts_count_cfg / ble_gatts_add_svcs rounds) performed. -/
structure ServerState where
  gattsStarted : Bool
  svcChanged : Bool
  connectedPeers : List Nat
  indWait : List Nat
  svcVec : List ServiceState
  freed : List Nat
  registrations : Nat
  deriving Repr, DecidableEq

/-- Server::setIndicateWait (Server.cpp lines 752-760): scan m_indWait;
if any slot already holds the connection handle return false, otherwise
return true.  Nothing is stored into the array by this function. -/
def Server.setIndicateWait (indWait : List Nat) (conn_handle : Nat) : Bool :=
  !(indWait.any (fun i => i == conn_handle))

/-- Server::clearIndicateWait (Server.cpp lines 762-769): overwrite the
first slot holding the connection handle with BLE_HS_CONN_HANDLE_NONE. -/
def Server.clearIndicateWait : List Nat → Nat → List Nat
  | [], _ => []
  | i :: rest, conn_handle =>
    if i == conn_handle then BLE_HS_CONN_HANDLE_NONE :: rest
    else i :: Server.clearIndicateWait rest conn_handle

/-- Modelled from the spec: the indication sender records the connection
handle of an indication in flight in a free slot of the indicate-wait
array ("at most one outstanding indication per connection at a time is
enforced via the flag array").  The sender, Characteristic::indicate /
Characteristic::notify, is declared in include/nimble/Characteristic.hpp
but its definition (Characteristic.cpp) is not among the given sources;
Characteristic is a friend of Server and so can write m_indWait. -/
def recordIndicateWait : List Nat → Nat → List Nat
  | [], _ => []
  | i :: rest, conn_handle =>
    if i == BLE_HS_CONN_HANDLE_NONE then conn_handle :: rest
    else i :: recordIndicateWait rest conn_handle

/-- The service loop of Server::resetGATT (Server.cpp lines 657-670):
services tagged NIMBLE_ATT_REMOVE_DELETE are deleted (freeing their owned
characteristic objects) and erased, other removed (hidden) services are
kept without being started, the rest are started (Service::start).
Returns the new service vector, the freed ids, and the number of
registrations performed. -/
def resetSvcLoop (svcChanged : Bool) : List ServiceState → List ServiceState × List Nat × Nat
  | [] => ([], [], 0)
  | svc :: rest =>
    let r := resetSvcLoop svcChanged rest
    if svc.removed > 0 then
      if svc.removed == NIMBLE_ATT_REMOVE_DELETE then
        (r.1, svc.chrVec.map Chr.id ++ r.2.1, r.2.2)
      else (svc :: r.1, r.2.1, r.2.2)
    else
      let st := Service.start svcChanged svc
      (st.1 :: r.1, st.2.1 ++ r.2.1, r.2.2 + 1)

/-- Server::resetGATT (Server.cpp lines 647-674): a no-op while any peer
is connected; otherwise run the service loop, then clear m_svcChanged and
m_gattsStarted. -/
def Server.resetGATT (s : ServerState) : ServerState :=
  if s.connectedPeers.length > 0 then s
  else
    let r := resetSvcLoop s.svcChanged s.svcVec
    { s with svcVec := r.1,
             freed := s.freed ++ r.2.1,
             registrations := s.registrations + r.2.2,
             svcChanged := false,
             gattsStarted := false }

/-- Server::serviceChanged (Server.cpp lines 158-164): when the GATT
server is started, set the change flag, signal the peers
(ble_svc_gatt_changed, an external host call) and attempt a reset. -/
def Server.serviceChanged (s : ServerState) : ServerState :=
  if s.gattsStarted then Server.resetGATT { s with svcChanged := true }
  else s

/-- The dispatch of a Service::removeCharacteristic call to the owning
service in m_svcVec (the caller holds a pointer to that service). -/
def removeChrInSvcs (svcId chrId : Nat) (deleteChr : Bool) :
    List ServiceState → List ServiceState × List Nat × Bool
  | [] => ([], [], false)
  | svc :: rest =>
    if svc.id == svcId then
      let k := Service.removeCharacteristic svc chrId deleteChr
      (k.1 :: rest, k.2.1, k.2.2)
    else
      let r := removeChrInSvcs svcId chrId deleteChr rest
      (svc :: r.1, r.2.1, r.2.2)

/-- A Service::removeCharacteristic call seen at server level: update the
owning service, log any freed object, and run Server::serviceChanged when
the service signalled a change (first-removal path only). -/
def Server.removeCharacteristic (s : ServerState) (svcId chrId : Nat) (deleteChr : Bool) :
    ServerState :=
  let r := removeChrInSvcs svcId chrId deleteChr s.svcVec
  let s2 := { s with svcVec := r.1, freed := s.freed ++ r.2.1 }
  if r.2.2 then Server.serviceChanged s2 else s2

/-- The BLE_GAP_EVENT_DISCONNECT branch of Server::handleGapEvent
(Server.cpp lines 351-384): erase the connection handle from
m_connectedPeersVec (std::remove erases every occurrence), then run the
deferred reset when m_svcChanged is set.  The indicate-wait array is not
touched. -/
def Server.handleDisconnect (s : ServerState) (conn_handle : Nat) : ServerState :=
  let s1 := { s with connectedPeers := s.connectedPeers.filter (fun h => !(h == conn_handle)) }
  if s1.svcChanged then Server.resetGATT s1 else s1

/-- The indication part of the BLE_GAP_EVENT_NOTIFY_TX branch of
Server::handleGapEvent (Server.cpp lines 439-444): status 0 means the
indication was sent but not yet acknowledged, nothing changes; any other
status (the acknowledgment arrives as BLE_HS_EDONE) clears the
indicate-wait flag of the connection. -/
def Server.handleNotifyTxIndication (s : ServerState) (conn_handle status : Nat) : ServerState :=
  if status == 0 then s
  else { s with indWait := Server.clearIndicateWait s.indWait conn_handle }

/-! ### Remote descriptor synchronous bridge (src/RemoteDescriptor.cpp) -/

/-- BLE_HS_EDONE host status. -/
def BLE_HS_EDONE : Nat := 14

/-- BLE_HS_ATT_ERR: an ATT error mapped into the host status space
(BLE_HS_ERR_ATT_BASE = 0x100). -/
def BLE_HS_ATT_ERR (x : Nat) : Nat := 256 + x

/-- ATT error: insufficient authentication (0x05). -/
def BLE_ATT_ERR_INSUFFICIENT_AUTHEN : Nat := 5

/-- ATT error: insufficient authorization (0x08). -/
def BLE_ATT_ERR_INSUFFICIENT_AUTHOR : Nat := 8

/-- ATT error: insufficient encryption (0x0f). -/
def BLE_ATT_ERR_INSUFFICIENT_ENC : Nat := 15

/-- ATT error: attribute not long (0x0b). -/
def BLE_ATT_ERR_ATTR_NOT_LONG : Nat := 11

/-- ATT error: invalid attribute value length (0x0d). -/
def BLE_ATT_ERR_INVALID_ATTR_VALUE_LEN : Nat := 13

/-- ATT error: unlikely (0x0e). -/
def BLE_ATT_ERR_UNLIKELY : Nat := 14

/-- The three insufficient-security resume statuses grouped by the case
labels of the status switches in RemoteDescriptor::readValue and
RemoteDescriptor::writeValue. -/
def insufficientSecurity (rc : Nat) : Bool :=
  rc == BLE_HS_ATT_ERR BLE_ATT_ERR_INSUFFICIENT_AUTHEN ||
  rc == BLE_HS_ATT_ERR BLE_ATT_ERR_INSUFFICIENT_AUTHOR ||
  rc == BLE_HS_ATT_ERR BLE_ATT_ERR_INSUFFICIENT_ENC

/-- uint16 subtraction of 3 (mtu = ble_att_mtu(conn) - 3 in the source). -/
def u16sub3 (m : Nat) : Nat := (m + 65533) % 65536

/-- The do-while of RemoteDescriptor::readValue (RemoteDescriptor.cpp
lines 100-136).  Each recursive step is one iteration: one
ble_gattc_read_long submission followed by the terminal resume status for
it (the head of statuses); secure lists the successive results of
pClient->secureConnection().  Returns whether the call finished with
rc == 0 (the accumulated value is complete) and how many requests were
submitted; false models the early return with whatever value had
accumulated.  An empty statuses list models an execution in which the
task is never resumed, which the host stack does not do; it is mapped to
a failure after the submission. -/
def RemoteDescriptor.readValueLoop : List Nat → List Bool → Int → Bool × Nat
  | [], _, _ => (false, 1)
  | rc :: rest, secure, retryCount =>
    if rc == 0 || rc == BLE_HS_EDONE then (true, 1)
    else if rc == BLE_HS_ATT_ERR BLE_ATT_ERR_ATTR_NOT_LONG then (true, 1)
    else if insufficientSecurity rc then
      if retryCount != 0 && secure.headD false then
        let r := RemoteDescriptor.readValueLoop rest secure.tail (retryCount - 1)
        (r.1, r.2 + 1)
      else (false, 1)
    else (false, 1)

/-- RemoteDescriptor::readValue (RemoteDescriptor.cpp lines 84-140):
fail immediately when not connected (no request submitted), otherwise run
the retry loop with retryCount = 1. -/
def RemoteDescriptor.readValue (connected : Bool) (statuses : List Nat) (secure : List Bool) :
    Bool × Nat :=
  if !connected then (false, 0)
  else RemoteDescriptor.readValueLoop statuses secure 1

/-- One write request submitted to the host stack: whether it was a
fragmented long write (ble_gattc_write_long) or a single flat frame
(ble_gattc_write_flat), and the payload length used. -/
structure WriteReq where
  isLong : Bool
  len : Nat
  deriving Repr, DecidableEq

/-- The do-while of RemoteDescriptor::writeValue (RemoteDescriptor.cpp
lines 271-317).  Each recursive step is one iteration: a long write when
length > mtu, else a flat write, followed by the terminal resume status
(head of statuses).  On BLE_ATT_ERR_ATTR_NOT_LONG the retry budget is
incremented and length truncated to mtu before looping; on an
insufficient-security status the loop retries while the budget is
nonzero and secureConnection() succeeds.  Returns the boolean result of
writeValue and the submitted requests in order. -/
def RemoteDescriptor.writeValueLoop : List Nat → List Bool → Nat → Nat → Int → Bool × List WriteReq
  | statuses, secure, mtu, length, retryCount =>
    let req : WriteReq := { isLong := decide (length > mtu), len := length }
    match statuses with
    | [] => (false, [req])
    | rc :: rest =>
      if rc == 0 || rc == BLE_HS_EDONE then (true, [req])
      else if rc == BLE_HS_ATT_ERR BLE_ATT_ERR_ATTR_NOT_LONG then
        if (retryCount + 1) != 0 then
          let r := RemoteDescriptor.writeValueLoop rest secure mtu mtu ((retryCount + 1) - 1)
          (r.1, req :: r.2)
        else (false, [req])
      else if insufficientSecurity rc then
        if retryCount != 0 && secure.headD false then
          let r := RemoteDescriptor.writeValueLoop rest secure.tail mtu length (retryCount - 1)
          (r.1, req :: r.2)
        else (false, [req])
      else (false, [req])

/-- RemoteDescriptor::writeValue (RemoteDescriptor.cpp lines 245-321):
fail immediately when not connected; compute mtu = ble_att_mtu - 3; a
payload that fits in one frame with no response requested goes out as a
single ble_gattc_write_no_rsp_flat (submission modelled as accepted);
otherwise run the retry loop with retryCount = 1. -/
def RemoteDescriptor.writeValue (connected : Bool) (att_mtu : Nat) (length : Nat)
    (response : Bool) (statuses : List Nat) (secure : List Bool) : Bool × List WriteReq :=
  if !connected then (false, [])
  else
    let mtu := u16sub3 att_mtu
    if length ≤ mtu && !response then (true, [{ isLong := false, len := length }])
    else RemoteDescriptor.writeValueLoop statuses secure mtu length 1

/-! ### Local descriptor write access (src/Descriptor.cpp) -/

/-- The fragment-chain accumulation loop of the BLE_GATT_ACCESS_OP_WRITE_DSC
branch of Descriptor::handleGapEvent (Descriptor.cpp lines 189-198): walk
the mbuf chain, rejecting as soon as the accumulated length would exceed
att_max_len, otherwise appending each fragment to the scratch buffer. -/
def Descriptor.accumulateFrags (att_max_len : Nat) (buf : List Nat) :
    List (List Nat) → Option (List Nat)
  | [] => some buf
  | nxt :: rest =>
    if buf.length + nxt.length > att_max_len then none
    else Descriptor.accumulateFrags att_max_len (buf ++ nxt) rest

/-- The BLE_GATT_ACCESS_OP_WRITE_DSC branch of Descriptor::handleGapEvent
(Descriptor.cpp lines 144-210).  The mbuf chain is modelled as the head
fragment (ctxt->om) plus the list of chained fragments; uuidMatches is
the ble_uuid_cmp guard.  Returns the ATT status returned to the host
stack, the attribute value afterwards, and whether the onWrite
application callback was invoked. -/
def Descriptor.handleWriteAccess (value : AttributeValue) (uuidMatches : Bool)
    (firstFrag : List Nat) (restFrags : List (List Nat)) : Nat × AttributeValue × Bool :=
  if !uuidMatches then (BLE_ATT_ERR_UNLIKELY, value, false)
  else
    let att_max_len := value.m_attr_max_len
    if firstFrag.length > att_max_len then (BLE_ATT_ERR_INVALID_ATTR_VALUE_LEN, value, false)
    else
      match Descriptor.accumulateFrags att_max_len firstFrag restFrags with
      | none => (BLE_ATT_ERR_INVALID_ATTR_VALUE_LEN, value, false)
      | some buf => (0, (value.setValue buf).2, true)

/-! ### Remote characteristic discovery back-fill (src/RemoteService.cpp) -/

/-- A discovered remote characteristic: its definition (start) handle and
its end handle as stored in the RemoteCharacteristic object. -/
structure RemoteChr where
  m_defHandle : Nat
  m_endHandle : Nat
  deriving Repr, DecidableEq

/-- uint16 subtraction of 1 ((*nx)->m_defHandle - 1 in the source). -/
def u16sub1 (h : Nat) : Nat := (h + 65535) % 65536

/-- The successor loop of RemoteService::retrieveCharacteristics
(RemoteService.cpp lines 239-247): every element but the last gets its
end handle set to the definition handle of its successor minus one. -/
def backfillLoop : List RemoteChr → List RemoteChr
  | [] => []
  | [c] => [c]
  | c :: nx :: rest =>
    { c with m_endHandle := u16sub1 nx.m_defHandle } :: backfillLoop (nx :: rest)

/-- The final step of RemoteService::retrieveCharacteristics
(RemoteService.cpp lines 249-251): the last element gets the end handle
of the parent service. -/
def setLastEndHandle (svcEnd : Nat) : List RemoteChr → List RemoteChr
  | [] => []
  | [c] => [{ c with m_endHandle := svcEnd }]
  | c :: nx :: rest => c :: setLastEndHandle svcEnd (nx :: rest)

/-- The end-handle back-fill performed by
RemoteService::retrieveCharacteristics after a successful full,
unfiltered discovery (taskData.rc == 0 and uuid_filter == nullptr). -/
def RemoteService.backfillEndHandles (chars : List RemoteChr) (svcEnd : Nat) : List RemoteChr :=
  setLastEndHandle svcEnd (backfillLoop chars)

/-- The flattened form of one visible characteristic, phrased the way the
specification describes it (visible children in order followed by the
sentinel): its uuid, itself as the context arg, and its visible
descriptors followed by the descriptor sentinel (a null pointer when it
has no visible descriptor).  Used to compare the compiler output against
the specification. -/
def chrEntrySpec (c : Chr) : FlatChr :=
  { uuid := some c.uuid
  , arg := c.id
  , descriptors :=
      if (c.dscVec.filter (fun d => d.removed == 0)).length == 0 then none
      else some ((c.dscVec.filter (fun d => d.removed == 0)).map
        (fun d => { uuid := some d.uuid, arg := d.id }) ++ [dscSentinel]) }

/-! ### Theorems -/

/-- Claim C7: for every AttributeValue v and byte sequence data, if
len(data) <= v.max_length then setValue(data) returns true and afterwards
the length equals len(data), the stored bytes equal data, and the
capacity is at least the length; if len(data) > v.max_length then
setValue(data) returns false and v is unchanged. -/
theorem C7_setValue (v : AttributeValue) (data : List Nat) :
    (data.length ≤ v.m_attr_max_len →
      (v.setValue data).1 = true ∧
      (v.setValue data).2.m_attr_len = data.length ∧
      (v.setValue data).2.m_attr_value = some data ∧
      (v.setValue data).2.m_attr_len ≤ (v.setValue data).2.m_capacity) ∧
    (v.m_attr_max_len < data.length →
      (v.setValue data).1 = false ∧ (v.setValue data).2 = v) := by
  constructor
  · intro h
    have hnot : ¬ data.length > v.m_attr_max_len := Nat.not_lt.mpr h
    refine ⟨?_, ?_, ?_, ?_⟩
    · simp [AttributeValue.setValue, if_neg hnot]
    · simp [AttributeValue.setValue, if_neg hnot]
    · simp [AttributeValue.setValue, if_neg hnot]
    · simp only [AttributeValue.setValue, if_neg hnot]
      by_cases hc : data.length > v.m_capacity
      · simp [hc]
      · simp only [if_neg hc]
        omega
  · intro h
    have hgt : data.length > v.m_attr_max_len := h
    simp [AttributeValue.setValue, if_pos hgt]

/-- Claim C7 witness: the theorem applied at concrete inputs covering
both the fitting and the oversized branch. -/
theorem C7_setValue_witness :
    ((AttributeValue.mkInit 20 512).setValue [1, 2, 3]).1 = true ∧
    ((AttributeValue.mkInit 20 2).setValue [5, 6, 7]).1 = false :=
  ⟨((C7_setValue (AttributeValue.mkInit 20 512) [1, 2, 3]).1 (by decide)).1,
   ((C7_setValue (AttributeValue.mkInit 20 2) [5, 6, 7]).2 (by decide)).1⟩

/-- Claim C8 counterexample: the default constructor called with
init_len = 5 and max_len = 2 (arguments satisfying the constructor
asserts 1 < init_len and init_len < 512) produces capacity 5 and
max_length 2, so the claimed invariant length <= capacity <= max_length
fails immediately after a public constructor. -/
theorem C8_counterexample :
    1 < 5 ∧ 5 < BLE_ATT_ATTR_MAX_LEN ∧ ¬ (AttributeValue.mkInit 5 2).wellBounded := by
  refine ⟨by norm_num, by decide, by decide⟩

/-- Claim C8 (amended): every AttributeValue satisfies
length <= capacity <= max_length <= 512 immediately after its public
constructors provided the initial capacity fits under the requested
maximum (init_len <= max_len and init_len <= 512 for the default
constructor, len(data) <= max_len and len(data) <= 512 for the buffer
constructor) -- with init_len greater than max_len the constructed value
has capacity above max_length -- and the invariant is preserved by every
setValue and append call. -/
theorem C8_invariant (init_len max_len : Nat) (value data : List Nat) (v : AttributeValue) :
    (init_len ≤ max_len → init_len ≤ 512 →
      (AttributeValue.mkInit init_len max_len).wellBounded) ∧
    (value.length ≤ max_len → value.length ≤ 512 →
      (AttributeValue.mkFromBuf value max_len).wellBounded) ∧
    (v.wellBounded → ((v.setValue data).2).wellBounded) ∧
    (v.wellBounded → (v.append data).wellBounded) := by
  refine ⟨?_, ?_, ?_, ?_⟩
  · intro h1 h2
    simp only [AttributeValue.mkInit, AttributeValue.wellBounded, BLE_ATT_ATTR_MAX_LEN]
    omega
  · intro h1 h2
    simp only [AttributeValue.mkFromBuf, AttributeValue.mkInit, AttributeValue.wellBounded,
      BLE_ATT_ATTR_MAX_LEN]
    omega
  · intro h
    obtain ⟨h1, h2, h3⟩ := h
    unfold AttributeValue.setValue
    by_cases hgt : data.length > v.m_attr_max_len
    · simp only [if_pos hgt]
      exact ⟨h1, h2, h3⟩
    · simp only [if_neg hgt]
      by_cases hc : data.length > v.m_capacity
      · simp only [if_pos hc, AttributeValue.wellBounded]
        refine ⟨Nat.le_refl _, ?_, h3⟩
        omega
      · simp only [if_neg hc, AttributeValue.wellBounded]
        refine ⟨?_, h2, h3⟩
        omega
  · intro h
    obtain ⟨h1, h2, h3⟩ := h
    unfold AttributeValue.append
    by_cases h0 : data.length < 1
    · simp only [if_pos h0]
      exact ⟨h1, h2, h3⟩
    · simp only [if_neg h0]
      by_cases hgt : v.m_attr_len + data.length > v.m_attr_max_len
      · simp only [if_pos hgt]
        exact ⟨h1, h2, h3⟩
      · simp only [if_neg hgt]
        by_cases hc : v.m_attr_len + data.length > v.m_capacity
        · simp only [if_pos hc, AttributeValue.wellBounded]
          refine ⟨Nat.le_refl _, ?_, h3⟩
          omega
        · simp only [if_neg hc, AttributeValue.wellBounded]
          refine ⟨?_, h2, h3⟩
          omega

/-- Claim C8 witness: the amended theorem applied at concrete inputs,
with every hypothesis discharged there. -/
theorem C8_invariant_witness :
    (AttributeValue.mkInit 20 512).wellBounded ∧
    (AttributeValue.mkFromBuf [1, 2] 512).wellBounded ∧
    (((AttributeValue.mkInit 20 512).setValue [9]).2).wellBounded ∧
    ((AttributeValue.mkInit 20 512).append [9]).wellBounded := by
  have h := C8_invariant 20 512 [1, 2] [9] (AttributeValue.mkInit 20 512)
  exact ⟨h.1 (by decide) (by decide), h.2.1 (by decide) (by decide),
    h.2.2.1 (by decide), h.2.2.2 (by decide)⟩

/-- Claim C10 counterexample: move-assigning from a source holding the 3
bytes [1, 2, 3] leaves the source with a null buffer pointer but an
observable length of 3, not 0, so the source is not emptied as claimed. -/
theorem C10_counterexample :
    ((AttributeValue.moveAssign (AttributeValue.mkInit 20 512)
        (AttributeValue.mkFromBuf [1, 2, 3] 512)).2.m_attr_value = none) ∧
    ¬ ((AttributeValue.moveAssign (AttributeValue.mkInit 20 512)
        (AttributeValue.mkFromBuf [1, 2, 3] 512)).2.length = 0) := by
  decide

/-- Claim C10 (amended): after move-assignment (and after the move
constructor, which forwards to the move assignment) the destination holds
the former buffer, length, capacity and max_length of the source, and the
source no longer owns the buffer (its data pointer is null); but the
source is not fully emptied: its observable length keeps its former value
rather than becoming zero. -/
theorem C10_move (dest source : AttributeValue) :
    (AttributeValue.moveAssign dest source).1.m_attr_value = source.m_attr_value ∧
    (AttributeValue.moveAssign dest source).1.m_attr_len = source.m_attr_len ∧
    (AttributeValue.moveAssign dest source).1.m_capacity = source.m_capacity ∧
    (AttributeValue.moveAssign dest source).1.m_attr_max_len = source.m_attr_max_len ∧
    (AttributeValue.moveAssign dest source).2.m_attr_value = none ∧
    (AttributeValue.moveAssign dest source).2.length = source.length :=
  ⟨rfl, rfl, rfl, rfl, rfl, rfl⟩

theorem backfillLoop_length (l : List RemoteChr) : (backfillLoop l).length = l.length := by
  induction l with
  | nil => rfl
  | cons c rest ih =>
    cases rest with
    | nil => rfl
    | cons nx rest2 =>
      simp [backfillLoop] at ih ⊢
      omega

theorem setLastEndHandle_length (svcEnd : Nat) (l : List RemoteChr) :
    (setLastEndHandle svcEnd l).length = l.length := by
  induction l with
  | nil => rfl
  | cons c rest ih =>
    cases rest with
    | nil => rfl
    | cons nx rest2 =>
      simp [setLastEndHandle] at ih ⊢
      omega

theorem backfillLoop_getD (l : List RemoteChr) :
    ∀ (i : Nat) (dflt : RemoteChr), i + 1 < l.length →
      (backfillLoop l).getD i dflt
        = { l.getD i dflt with m_endHandle := u16sub1 (l.getD (i + 1) dflt).m_defHandle } := by
  induction l with
  | nil => intro i dflt h; simp at h
  | cons c rest ih =>
    intro i dflt h
    cases rest with
    | nil => simp at h
    | cons nx rest2 =>
      cases i with
      | zero => simp [backfillLoop]
      | succ j =>
        simp only [backfillLoop, List.getD_cons_succ]
        apply ih
        simp at h ⊢
        omega

theorem setLastEndHandle_getD (svcEnd : Nat) (l : List RemoteChr) :
    ∀ (i : Nat) (dflt : RemoteChr), i + 1 < l.length →
      (setLastEndHandle svcEnd l).getD i dflt = l.getD i dflt := by
  induction l with
  | nil => intro i dflt h; simp at h
  | cons c rest ih =>
    intro i dflt h
    cases rest with
    | nil => simp at h
    | cons nx rest2 =>
      cases i with
      | zero => simp [setLastEndHandle]
      | succ j =>
        simp only [setLastEndHandle, List.getD_cons_succ]
        apply ih
        simp at h ⊢
        omega

theorem setLastEndHandle_getLast (svcEnd : Nat) (l : List RemoteChr) (h : l ≠ []) :
    ((setLastEndHandle svcEnd l).getLast?).map RemoteChr.m_endHandle = some svcEnd := by
  induction l with
  | nil => exact absurd rfl h
  | cons c rest ih =>
    cases rest with
    | nil => simp [setLastEndHandle]
    | cons nx rest2 =>
      have htail := ih (by simp)
      obtain ⟨y, ys, hys⟩ : ∃ y ys, setLastEndHandle svcEnd (nx :: rest2) = y :: ys := by
        cases rest2 with
        | nil => exact ⟨_, _, rfl⟩
        | cons a b => exact ⟨_, _, rfl⟩
      simp only [setLastEndHandle]
      rw [hys, List.getLast?_cons_cons, ← hys]
      exact htail

/-- Claim C9: after a successful full, unfiltered characteristic
discovery on a remote service, every discovered characteristic except the
last has its end handle equal to the definition (start) handle of its
successor minus one, and the last discovered characteristic has its end
handle equal to the end handle of the parent service (e.g. start handles
10, 20, 30 in a service ending at 40 give end handles 19, 29, 40). -/
theorem C9_endHandle_backfill (chars : List RemoteChr) (svcEnd : Nat) (i : Nat)
    (dflt : RemoteChr)
    (hi : i + 1 < chars.length)
    (hpos : 1 ≤ (chars.getD (i + 1) dflt).m_defHandle)
    (hle : (chars.getD (i + 1) dflt).m_defHandle ≤ 65535) :
    ((RemoteService.backfillEndHandles chars svcEnd).getD i dflt).m_endHandle
      = (chars.getD (i + 1) dflt).m_defHandle - 1 ∧
    (chars ≠ [] →
      ((RemoteService.backfillEndHandles chars svcEnd).getLast?).map RemoteChr.m_endHandle
        = some svcEnd) := by
  constructor
  · unfold RemoteService.backfillEndHandles
    rw [setLastEndHandle_getD svcEnd (backfillLoop chars) i dflt
      (by rw [backfillLoop_length]; exact hi)]
    rw [backfillLoop_getD chars i dflt hi]
    simp only
    unfold u16sub1
    omega
  · intro hne
    unfold RemoteService.backfillEndHandles
    apply setLastEndHandle_getLast
    intro hnil
    have := backfillLoop_length chars
    rw [hnil] at this
    simp at this
    exact hne (List.eq_nil_of_length_eq_zero this.symm)

/-- Claim C9 witness: the theorem applied at the concrete example of the
claim (start handles 10, 20, 30, service end 40), once for each of the
two back-filled predecessors and once for the last element. -/
theorem C9_endHandle_backfill_witness :
    ((RemoteService.backfillEndHandles [⟨10, 0⟩, ⟨20, 0⟩, ⟨30, 0⟩] 40).getD 0
        ⟨0, 0⟩).m_endHandle = 19 ∧
    ((RemoteService.backfillEndHandles [⟨10, 0⟩, ⟨20, 0⟩, ⟨30, 0⟩] 40).getD 1
        ⟨0, 0⟩).m_endHandle = 29 ∧
    ((RemoteService.backfillEndHandles [⟨10, 0⟩, ⟨20, 0⟩, ⟨30, 0⟩] 40).getLast?).map
        RemoteChr.m_endHandle = some 40 := by
  refine ⟨?_, ?_, ?_⟩
  · have h := C9_endHandle_backfill [⟨10, 0⟩, ⟨20, 0⟩, ⟨30, 0⟩] 40 0 ⟨0, 0⟩
      (by decide) (by decide) (by decide)
    simpa using h.1
  · have h := C9_endHandle_backfill [⟨10, 0⟩, ⟨20, 0⟩, ⟨30, 0⟩] 40 1 ⟨0, 0⟩
      (by decide) (by decide) (by decide)
    simpa using h.1
  · have h := C9_endHandle_backfill [⟨10, 0⟩, ⟨20, 0⟩, ⟨30, 0⟩] 40 0 ⟨0, 0⟩
      (by decide) (by decide) (by decide)
    exact h.2 (by decide)

/-- Claim C4: for a remote descriptor read or write resumed with an
insufficient-authentication / authorization / encryption status, if the
one-retry budget is unspent and secureConnection succeeds, the identical
request is submitted exactly once more (two submissions in total, and on
a write the retried request has the same kind and the same length); if
the retry is again resumed with an insufficient-security status (the
budget then being spent) or the security upgrade fails, the operation
returns failure with no further retry.  A success status on the retry
completes the operation with exactly the two submissions. -/
theorem C4_security_retry (s1 s2 : Nat) (rest : List Nat) (sec : List Bool) (mtu len : Nat)
    (h1 : insufficientSecurity s1 = true) (h2 : insufficientSecurity s2 = true) :
    RemoteDescriptor.readValue true (s1 :: s2 :: rest) (true :: sec) = (false, 2) ∧
    RemoteDescriptor.readValue true (s1 :: 0 :: rest) (true :: sec) = (true, 2) ∧
    RemoteDescriptor.readValue true (s1 :: s2 :: rest) (false :: sec) = (false, 1) ∧
    RemoteDescriptor.writeValueLoop (s1 :: s2 :: rest) (true :: sec) mtu len 1
      = (false, [{ isLong := decide (len > mtu), len := len },
                 { isLong := decide (len > mtu), len := len }]) ∧
    RemoteDescriptor.writeValueLoop (s1 :: 0 :: rest) (true :: sec) mtu len 1
      = (true, [{ isLong := decide (len > mtu), len := len },
                { isLong := decide (len > mtu), len := len }]) ∧
    RemoteDescriptor.writeValueLoop (s1 :: s2 :: rest) (false :: sec) mtu len 1
      = (false, [{ isLong := decide (len > mtu), len := len }]) := by
  simp only [insufficientSecurity, BLE_HS_ATT_ERR, BLE_ATT_ERR_INSUFFICIENT_AUTHEN,
    BLE_ATT_ERR_INSUFFICIENT_AUTHOR, BLE_ATT_ERR_INSUFFICIENT_ENC, Bool.or_eq_true,
    beq_iff_eq] at h1 h2
  rcases h1 with (h1 | h1) | h1 <;> rcases h2 with (h2 | h2) | h2 <;> subst h1 <;> subst h2 <;>
    refine ⟨?_, ?_, ?_, ?_, ?_, ?_⟩ <;>
    norm_num [RemoteDescriptor.readValue, RemoteDescriptor.readValueLoop,
      RemoteDescriptor.writeValueLoop, insufficientSecurity, BLE_HS_ATT_ERR, BLE_HS_EDONE,
      BLE_ATT_ERR_ATTR_NOT_LONG, BLE_ATT_ERR_INSUFFICIENT_AUTHEN,
      BLE_ATT_ERR_INSUFFICIENT_AUTHOR, BLE_ATT_ERR_INSUFFICIENT_ENC]

/-- Claim C4 witness: the theorem applied at a concrete insufficient-
encryption then insufficient-authentication trace. -/
theorem C4_security_retry_witness :
    RemoteDescriptor.readValue true [271, 261] [true] = (false, 2) ∧
    RemoteDescriptor.readValue true [271, 0] [true] = (true, 2) ∧
    RemoteDescriptor.writeValueLoop [271, 261] [false] 20 5 1
      = (false, [{ isLong := false, len := 5 }]) := by
  have h := C4_security_retry 271 261 [] [] 20 5 (by decide) (by decide)
  refine ⟨by simpa using h.1, by simpa using h.2.1, by simpa using h.2.2.2.2.2⟩

/-- Claim C5: a remote descriptor write whose payload exceeds the
negotiated MTU minus 3 is issued as a fragmented long write; when the
peer rejects it with attribute-not-long, the bridge retries with a single
flat frame truncated to MTU minus 3, and writeValue returns true when
that truncated retry completes with status 0. -/
theorem C5_long_write_fallback (att_mtu len : Nat) (response : Bool)
    (rest : List Nat) (secure : List Bool)
    (h3 : 3 ≤ att_mtu) (hmax : att_mtu ≤ 65535) (hlong : att_mtu - 3 < len) :
    RemoteDescriptor.writeValue true att_mtu len response
        (BLE_HS_ATT_ERR BLE_ATT_ERR_ATTR_NOT_LONG :: 0 :: rest) secure
      = (true, [{ isLong := true, len := len }, { isLong := false, len := att_mtu - 3 }]) := by
  have hmtu : u16sub3 att_mtu = att_mtu - 3 := by unfold u16sub3; omega
  have hnle : ¬ len ≤ att_mtu - 3 := by omega
  unfold RemoteDescriptor.writeValue
  rw [hmtu]
  simp only [Bool.not_true, Bool.false_eq_true, if_false, decide_eq_true_eq]
  rw [if_neg (by simp [hnle])]
  unfold RemoteDescriptor.writeValueLoop
  simp [RemoteDescriptor.writeValueLoop, BLE_HS_ATT_ERR, BLE_ATT_ERR_ATTR_NOT_LONG,
    BLE_HS_EDONE, hlong, Nat.not_lt.mpr (Nat.le_refl (att_mtu - 3))]

/-- Claim C5 witness: the theorem applied at MTU 23, payload length 100:
the long write is rejected, the flat retry of 20 bytes succeeds. -/
theorem C5_long_write_fallback_witness :
    RemoteDescriptor.writeValue true 23 100 true [267, 0] []
      = (true, [{ isLong := true, len := 100 }, { isLong := false, len := 20 }]) := by
  have h := C5_long_write_fallback 23 100 true [] [] (by decide) (by decide) (by decide)
  simpa using h

theorem accumulateFrags_complete (att_max_len : Nat) (frags : List (List Nat)) :
    ∀ buf : List Nat, buf.length + frags.flatten.length ≤ att_max_len →
      Descriptor.accumulateFrags att_max_len buf frags = some (buf ++ frags.flatten) := by
  induction frags with
  | nil =>
    intro buf h
    simp [Descriptor.accumulateFrags]
  | cons f rest ih =>
    intro buf h
    rw [List.flatten_cons, List.length_append] at h
    have hno : ¬ buf.length + f.length > att_max_len := by omega
    unfold Descriptor.accumulateFrags
    rw [if_neg hno]
    have hrec := ih (buf ++ f) (by rw [List.length_append]; omega)
    rw [hrec, List.flatten_cons, List.append_assoc]

theorem accumulateFrags_overflow (att_max_len : Nat) (frags : List (List Nat)) :
    ∀ buf : List Nat, buf.length ≤ att_max_len →
      att_max_len < buf.length + frags.flatten.length →
      Descriptor.accumulateFrags att_max_len buf frags = none := by
  induction frags with
  | nil =>
    intro buf h1 h2
    simp at h2
    omega
  | cons f rest ih =>
    intro buf h1 h2
    rw [List.flatten_cons, List.length_append] at h2
    unfold Descriptor.accumulateFrags
    by_cases hov : buf.length + f.length > att_max_len
    · rw [if_pos hov]
    · rw [if_neg hov]
      apply ih (buf ++ f)
      · rw [List.length_append]; omega
      · rw [List.length_append]; omega

/-- Claim C6: a host-stack write access to a local descriptor accumulates
all fragments into a scratch buffer bounded by the attribute maximum
length; when the accumulated length would exceed that maximum the handler
returns the invalid-attribute-value-length error, the stored value is
unchanged, and onWrite is not invoked; only after full reassembly is the
stored value replaced (by the concatenation of all fragments) and onWrite
invoked. -/
theorem C6_descriptor_write (v : AttributeValue) (first : List Nat) (rest : List (List Nat)) :
    (first.length + rest.flatten.length ≤ v.m_attr_max_len →
      Descriptor.handleWriteAccess v true first rest
        = (0, (v.setValue (first ++ rest.flatten)).2, true) ∧
      (v.setValue (first ++ rest.flatten)).2.m_attr_value = some (first ++ rest.flatten) ∧
      (v.setValue (first ++ rest.flatten)).2.m_attr_len = (first ++ rest.flatten).length) ∧
    (v.m_attr_max_len < first.length + rest.flatten.length →
      Descriptor.handleWriteAccess v true first rest
        = (BLE_ATT_ERR_INVALID_ATTR_VALUE_LEN, v, false)) := by
  constructor
  · intro h
    have hfit : ¬ first.length > v.m_attr_max_len := by omega
    have hacc := accumulateFrags_complete v.m_attr_max_len rest first h
    have hset : ¬ (first ++ rest.flatten).length > v.m_attr_max_len := by
      rw [List.length_append]
      omega
    refine ⟨?_, ?_, ?_⟩
    · unfold Descriptor.handleWriteAccess
      simp only [Bool.not_true, Bool.false_eq_true, if_false, if_neg hfit, hacc]
    · unfold AttributeValue.setValue
      rw [if_neg hset]
    · unfold AttributeValue.setValue
      rw [if_neg hset]
  · intro h
    unfold Descriptor.handleWriteAccess
    simp only [Bool.not_true, Bool.false_eq_true, if_false]
    by_cases hfirst : first.length > v.m_attr_max_len
    · rw [if_pos hfirst]
    · rw [if_neg hfirst]
      rw [accumulateFrags_overflow v.m_attr_max_len rest first (by omega) (by omega)]

/-- Claim C6 witness: the theorem applied to a descriptor value with
maximum length 8, once with fragments totalling 5 bytes (accepted, value
replaced, onWrite invoked) and once with fragments totalling 9 bytes
(rejected with the length error, value unchanged, onWrite not invoked). -/
theorem C6_descriptor_write_witness :
    Descriptor.handleWriteAccess (AttributeValue.mkInit 5 8) true [1, 2, 3] [[4, 5]]
      = (0, ((AttributeValue.mkInit 5 8).setValue [1, 2, 3, 4, 5]).2, true) ∧
    Descriptor.handleWriteAccess (AttributeValue.mkInit 5 8) true [1, 2, 3] [[4, 5, 6, 7, 8, 9]]
      = (BLE_ATT_ERR_INVALID_ATTR_VALUE_LEN, AttributeValue.mkInit 5 8, false) := by
  constructor
  · have h := (C6_descriptor_write (AttributeValue.mkInit 5 8) [1, 2, 3] [[4, 5]]).1
      (by decide)
    simpa using h.1
  · have h := (C6_descriptor_write (AttributeValue.mkInit 5 8) [1, 2, 3]
      [[4, 5, 6, 7, 8, 9]]).2 (by decide)
    simpa using h

theorem recordIndicateWait_mem (arr : List Nat) (h : Nat)
    (hfree : BLE_HS_CONN_HANDLE_NONE ∈ arr) : h ∈ recordIndicateWait arr h := by
  induction arr with
  | nil => simp at hfree
  | cons i rest ih =>
    by_cases hi : i = BLE_HS_CONN_HANDLE_NONE
    · simp [recordIndicateWait, hi]
    · have : BLE_HS_CONN_HANDLE_NONE ∈ rest := by
        rcases List.mem_cons.mp hfree with heq | hmem
        · exact absurd heq.symm hi
        · exact hmem
      simp [recordIndicateWait, hi]
      exact Or.inr (ih this)

theorem clear_record_cancel (arr : List Nat) (h : Nat)
    (hno : ∀ x ∈ arr, x ≠ h) :
    Server.clearIndicateWait (recordIndicateWait arr h) h = arr := by
  induction arr with
  | nil => rfl
  | cons i rest ih =>
    have hih : ∀ x ∈ rest, x ≠ h := fun x hx => hno x (List.mem_cons_of_mem i hx)
    have hi : i ≠ h := hno i (List.mem_cons_self i rest)
    by_cases hnone : i = BLE_HS_CONN_HANDLE_NONE
    · simp [recordIndicateWait, hnone, Server.clearIndicateWait]
    · simp [recordIndicateWait, hnone, Server.clearIndicateWait, hi]
      exact ih hih

theorem setIndicateWait_eq_true (arr : List Nat) (h : Nat) :
    Server.setIndicateWait arr h = true ↔ ∀ x ∈ arr, x ≠ h := by
  unfold Server.setIndicateWait
  simp

theorem resetGATT_indWait (s : ServerState) : (Server.resetGATT s).indWait = s.indWait := by
  unfold Server.resetGATT
  by_cases hc : s.connectedPeers.length > 0
  · rw [if_pos hc]
  · rw [if_neg hc]

theorem handleDisconnect_indWait (s : ServerState) (hd : Nat) :
    (Server.handleDisconnect s hd).indWait = s.indWait := by
  unfold Server.handleDisconnect
  by_cases hc : ({ s with connectedPeers :=
      s.connectedPeers.filter (fun h => !(h == hd)) } : ServerState).svcChanged
  · rw [if_pos hc, resetGATT_indWait]
  · rw [if_neg hc]

/-- Claim C1 counterexample: a server whose indicate-wait array still
records connection handle 7 (an indication in flight, unacknowledged)
processes the disconnect event for handle 7.  The handle leaves the peer
set, but the disconnect handler never clears the indicate-wait flag, so
Server::setIndicateWait(7) still returns false afterwards, while the
claim requires the flag to be cleared when the disconnect event for the
handle is processed. -/
theorem C1_counterexample :
    Server.setIndicateWait
      (Server.handleDisconnect
        ⟨true, false, [7], [7, 65535], [], [], 0⟩ 7).indWait 7 = false ∧
    (Server.handleDisconnect
        ⟨true, false, [7], [7, 65535], [], [], 0⟩ 7).connectedPeers = [] := by
  decide

/-- Claim C1 (amended): while an indication to connection handle h is in
flight, the indicate-wait array records h (the recording step is modelled
from the spec, Characteristic.cpp not being among the sources), so
Server::setIndicateWait(h) returns false until Server::clearIndicateWait(h)
has run; the flag is cleared when the indication-acknowledgment event
(BLE_GAP_EVENT_NOTIFY_TX for an indication with nonzero status) is
processed, while a status of 0 (sent, unacknowledged) changes nothing;
but, unlike the original claim, processing the disconnect event for h
does NOT clear the flag: the disconnect handler leaves the indicate-wait
array untouched. -/
theorem C1_indicate_wait (arr : List Nat) (h : Nat) (s : ServerState) (hd st : Nat)
    (hfree : BLE_HS_CONN_HANDLE_NONE ∈ arr)
    (hnotin : Server.setIndicateWait arr h = true) :
    Server.setIndicateWait (recordIndicateWait arr h) h = false ∧
    Server.clearIndicateWait (recordIndicateWait arr h) h = arr ∧
    Server.setIndicateWait (Server.clearIndicateWait (recordIndicateWait arr h) h) h = true ∧
    (st ≠ 0 →
      (Server.handleNotifyTxIndication
        { s with indWait := recordIndicateWait arr h } h st).indWait = arr) ∧
    Server.handleNotifyTxIndication s h 0 = s ∧
    (Server.handleDisconnect s hd).indWait = s.indWait := by
  have hno : ∀ x ∈ arr, x ≠ h := (setIndicateWait_eq_true arr h).mp hnotin
  have hclear := clear_record_cancel arr h hno
  refine ⟨?_, hclear, ?_, ?_, ?_, handleDisconnect_indWait s hd⟩
  · have hmem := recordIndicateWait_mem arr h hfree
    unfold Server.setIndicateWait
    have hany : (recordIndicateWait arr h).any (fun i => i == h) = true :=
      List.any_eq_true.mpr ⟨h, hmem, by simp⟩
    rw [hany]
    rfl
  · rw [hclear]
    exact hnotin
  · intro hst
    unfold Server.handleNotifyTxIndication
    have : (st == 0) = false := by simp [hst]
    rw [this]
    simp only [Bool.false_eq_true, if_false]
    exact hclear
  · rfl

/-- Claim C1 witness: the amended theorem applied to a two-slot array
with both slots free, connection handle 7, a concrete server state,
disconnecting handle 3 and acknowledgment status BLE_HS_EDONE. -/
theorem C1_indicate_wait_witness :
    Server.setIndicateWait (recordIndicateWait [65535, 65535] 7) 7 = false ∧
    Server.clearIndicateWait (recordIndicateWait [65535, 65535] 7) 7 = [65535, 65535] ∧
    (Server.handleNotifyTxIndication
      { gattsStarted := true, svcChanged := false, connectedPeers := [7],
        indWait := recordIndicateWait [65535, 65535] 7, svcVec := [], freed := [],
        registrations := 0 } 7 14).indWait = [65535, 65535] ∧
    (Server.handleDisconnect
      ⟨true, false, [7], [7, 65535], [], [], 0⟩ 3).indWait = [7, 65535] := by
  have h := C1_indicate_wait [65535, 65535] 7
    ⟨true, false, [7], recordIndicateWait [65535, 65535] 7, [], [], 0⟩ 3 14
    (by decide) (by decide)
  have h2 := C1_indicate_wait [65535, 65535] 7
    ⟨true, false, [7], [7, 65535], [], [], 0⟩ 3 14 (by decide) (by decide)
  exact ⟨h.1, h.2.1, h.2.2.2.1 (by decide), h2.2.2.2.2.2⟩

theorem natTag_and_eq (n : Nat) : ((n == 0) && !(n == 2)) = (n == 0) := by
  by_cases h : n = 0
  · simp [h]
  · simp [h]

theorem purgeDscVec_spec (l : List Dsc) :
    (purgeDscVec l).1 = l.filter (fun d => !(d.removed == NIMBLE_ATT_REMOVE_DELETE)) ∧
    (purgeDscVec l).2.1 = (l.filter (fun d => d.removed == NIMBLE_ATT_REMOVE_DELETE)).map Dsc.id ∧
    (purgeDscVec l).2.2
      = l.countP (fun d => !(d.removed == 0) && !(d.removed == NIMBLE_ATT_REMOVE_DELETE)) := by
  induction l with
  | nil => exact ⟨rfl, rfl, rfl⟩
  | cons d rest ih =>
    obtain ⟨ih1, ih2, ih3⟩ := ih
    by_cases h0 : d.removed = 0
    · simp [purgeDscVec, h0, NIMBLE_ATT_REMOVE_DELETE, List.filter_cons, List.countP_cons,
        ih1, ih2, ih3]
    · by_cases h2 : d.removed = 2
      · simp [purgeDscVec, h2, NIMBLE_ATT_REMOVE_DELETE, List.filter_cons, List.countP_cons,
          ih1, ih2, ih3]
      · have hpos : d.removed > 0 := Nat.pos_of_ne_zero h0
        simp [purgeDscVec, h0, h2, hpos, NIMBLE_ATT_REMOVE_DELETE, List.filter_cons,
          List.countP_cons, ih1, ih2, ih3]

theorem purgeChrVec_spec (l : List Chr) :
    (purgeChrVec l).1 = l.filter (fun c => !(c.removed == NIMBLE_ATT_REMOVE_DELETE)) ∧
    (purgeChrVec l).2.1 = (l.filter (fun c => c.removed == NIMBLE_ATT_REMOVE_DELETE)).map Chr.id ∧
    (purgeChrVec l).2.2
      = l.countP (fun c => !(c.removed == 0) && !(c.removed == NIMBLE_ATT_REMOVE_DELETE)) := by
  induction l with
  | nil => exact ⟨rfl, rfl, rfl⟩
  | cons c rest ih =>
    obtain ⟨ih1, ih2, ih3⟩ := ih
    by_cases h0 : c.removed = 0
    · simp [purgeChrVec, h0, NIMBLE_ATT_REMOVE_DELETE, List.filter_cons, List.countP_cons,
        ih1, ih2, ih3]
    · by_cases h2 : c.removed = 2
      · simp [purgeChrVec, h2, NIMBLE_ATT_REMOVE_DELETE, List.filter_cons, List.countP_cons,
          ih1, ih2, ih3]
      · have hpos : c.removed > 0 := Nat.pos_of_ne_zero h0
        simp [purgeChrVec, h0, h2, hpos, NIMBLE_ATT_REMOVE_DELETE, List.filter_cons,
          List.countP_cons, ih1, ih2, ih3]

theorem buildDscEntries_spec (l : List Dsc) :
    buildDscEntries l = (l.filter (fun d => d.removed == 0)).map
      (fun d => ({ uuid := some d.uuid, arg := d.id } : FlatDsc)) := by
  induction l with
  | nil => rfl
  | cons d rest ih =>
    by_cases h0 : d.removed = 0
    · simp [buildDscEntries, h0, ih]
    · have hpos : d.removed > 0 := Nat.pos_of_ne_zero h0
      simp [buildDscEntries, h0, hpos, ih]

theorem dsc_count_split (l : List Dsc) :
    l.countP (fun d => !(d.removed == NIMBLE_ATT_REMOVE_DELETE))
      = l.countP (fun d => d.removed == 0)
        + l.countP (fun d => !(d.removed == 0) && !(d.removed == NIMBLE_ATT_REMOVE_DELETE)) := by
  induction l with
  | nil => rfl
  | cons d rest ih =>
    simp only [NIMBLE_ATT_REMOVE_DELETE] at ih ⊢
    by_cases h0 : d.removed = 0
    · simp [List.countP_cons, h0]
      omega
    · by_cases h2 : d.removed = 2
      · simp [List.countP_cons, h0, h2]
        omega
      · simp [List.countP_cons, h0, h2]
        omega

theorem chr_count_split (l : List Chr) :
    l.countP (fun c => !(c.removed == NIMBLE_ATT_REMOVE_DELETE))
      = l.countP (fun c => c.removed == 0)
        + l.countP (fun c => !(c.removed == 0) && !(c.removed == NIMBLE_ATT_REMOVE_DELETE)) := by
  induction l with
  | nil => rfl
  | cons c rest ih =>
    simp only [NIMBLE_ATT_REMOVE_DELETE] at ih ⊢
    by_cases h0 : c.removed = 0
    · simp [List.countP_cons, h0]
      omega
    · by_cases h2 : c.removed = 2
      · simp [List.countP_cons, h0, h2]
        omega
      · simp [List.countP_cons, h0, h2]
        omega

theorem dsc_filter_act_purged (l : List Dsc) :
    (l.filter (fun d => !(d.removed == NIMBLE_ATT_REMOVE_DELETE))).filter
        (fun d => d.removed == 0)
      = l.filter (fun d => d.removed == 0) := by
  rw [List.filter_filter]
  apply List.filter_congr
  intro d hd
  simp only [NIMBLE_ATT_REMOVE_DELETE]
  exact natTag_and_eq d.removed

theorem chr_filter_act_purged (l : List Chr) :
    (l.filter (fun c => !(c.removed == NIMBLE_ATT_REMOVE_DELETE))).filter
        (fun c => c.removed == 0)
      = l.filter (fun c => c.removed == 0) := by
  rw [List.filter_filter]
  apply List.filter_congr
  intro c hc
  simp only [NIMBLE_ATT_REMOVE_DELETE]
  exact natTag_and_eq c.removed

theorem compileChr_numDscs (c : Chr) :
    (purgeDscVec c.dscVec).1.length - (purgeDscVec c.dscVec).2.2
      = (c.dscVec.filter (fun d => d.removed == 0)).length := by
  obtain ⟨p1, _, p3⟩ := purgeDscVec_spec c.dscVec
  rw [p1, p3, ← List.countP_eq_length_filter, ← List.countP_eq_length_filter]
  have := dsc_count_split c.dscVec
  omega

theorem compile_numChrs (l : List Chr) :
    (purgeChrVec l).1.length - (purgeChrVec l).2.2
      = (l.filter (fun c => c.removed == 0)).length := by
  obtain ⟨p1, _, p3⟩ := purgeChrVec_spec l
  rw [p1, p3, ← List.countP_eq_length_filter, ← List.countP_eq_length_filter]
  have := chr_count_split l
  omega

theorem compileChr_spec (c : Chr) :
    (compileChr c).1
      = { c with dscVec := c.dscVec.filter (fun d => !(d.removed == NIMBLE_ATT_REMOVE_DELETE)) } ∧
    (compileChr c).2.1 = chrEntrySpec c ∧
    (compileChr c).2.2
      = (c.dscVec.filter (fun d => d.removed == NIMBLE_ATT_REMOVE_DELETE)).map Dsc.id := by
  obtain ⟨p1, p2, p3⟩ := purgeDscVec_spec c.dscVec
  refine ⟨?_, ?_, ?_⟩
  · simp only [compileChr]
    rw [p1]
  · simp only [compileChr, chrEntrySpec]
    rw [compileChr_numDscs c, p1, buildDscEntries_spec, dsc_filter_act_purged]
  · simp only [compileChr]
    rw [p2]

theorem buildChrArray_spec (l : List Chr) :
    (buildChrArray l).1 = l.map (fun c => if c.removed == 0 then (compileChr c).1 else c) ∧
    (buildChrArray l).2.1
      = (l.filter (fun c => c.removed == 0)).map (fun c => (compileChr c).2.1) ∧
    (buildChrArray l).2.2
      = ((l.filter (fun c => c.removed == 0)).map (fun c => (compileChr c).2.2)).flatten := by
  induction l with
  | nil => exact ⟨rfl, rfl, rfl⟩
  | cons c rest ih =>
    obtain ⟨ih1, ih2, ih3⟩ := ih
    by_cases h0 : c.removed = 0
    · simp [buildChrArray, h0, ih1, ih2, ih3]
    · have hpos : c.removed > 0 := Nat.pos_of_ne_zero h0
      simp [buildChrArray, h0, hpos, ih1, ih2, ih3]

theorem Service.compile_eq (l : List Chr) :
    Service.compile l
      = if (l.filter (fun c => c.removed == 0)).length == 0 then
          ((purgeChrVec l).1,
           ({ characteristics := none, endType := 0 } : SvcDef),
           (purgeChrVec l).2.1)
        else
          ((buildChrArray (purgeChrVec l).1).1,
           ({ characteristics := some ((buildChrArray (purgeChrVec l).1).2.1 ++ [chrSentinel]),
              endType := 0 } : SvcDef),
           (purgeChrVec l).2.1 ++ (buildChrArray (purgeChrVec l).1).2.2) := by
  simp only [Service.compile]
  rw [compile_numChrs l]

theorem Service.compile_spec (l : List Chr) :
    (Service.compile l).1
      = (l.filter (fun c => !(c.removed == NIMBLE_ATT_REMOVE_DELETE))).map
          (fun c => if c.removed == 0 then (compileChr c).1 else c) ∧
    (Service.compile l).2.1.characteristics
      = (if (l.filter (fun c => c.removed == 0)).length == 0 then none
         else some ((l.filter (fun c => c.removed == 0)).map chrEntrySpec ++ [chrSentinel])) ∧
    (Service.compile l).2.1.endType = 0 ∧
    (Service.compile l).2.2
      = (l.filter (fun c => c.removed == NIMBLE_ATT_REMOVE_DELETE)).map Chr.id
        ++ (if (l.filter (fun c => c.removed == 0)).length == 0 then []
            else ((l.filter (fun c => c.removed == 0)).map
              (fun c => (c.dscVec.filter
                (fun d => d.removed == NIMBLE_ATT_REMOVE_DELETE)).map Dsc.id)).flatten) := by
  obtain ⟨p1, p2, p3⟩ := purgeChrVec_spec l
  obtain ⟨b1, b2, b3⟩ := buildChrArray_spec (purgeChrVec l).1
  have hentry : (fun c : Chr => (compileChr c).2.1) = chrEntrySpec :=
    funext (fun c => (compileChr_spec c).2.1)
  have hdfree : (fun c : Chr => (compileChr c).2.2)
      = (fun c : Chr => (c.dscVec.filter
          (fun d => d.removed == NIMBLE_ATT_REMOVE_DELETE)).map Dsc.id) :=
    funext (fun c => (compileChr_spec c).2.2)
  have hfact : (purgeChrVec l).1.filter (fun c => c.removed == 0)
      = l.filter (fun c => c.removed == 0) := by
    rw [p1]
    exact chr_filter_act_purged l
  rw [Service.compile_eq l]
  by_cases hz : ((l.filter (fun c => c.removed == 0)).length == 0) = true
  · rw [if_pos hz]
    have hnil : l.filter (fun c => c.removed == 0) = [] :=
      List.length_eq_zero.mp (by simpa using hz)
    refine ⟨?_, ?_, rfl, ?_⟩
    · rw [p1]
      symm
      have hid : ∀ c ∈ l.filter (fun c => !(c.removed == NIMBLE_ATT_REMOVE_DELETE)),
          (if c.removed == 0 then (compileChr c).1 else c) = id c := by
        intro c hc
        have hcl : c ∈ l := List.mem_of_mem_filter hc
        have hco : (c.removed == 0) = false := by
          cases hb : (c.removed == 0) with
          | false => rfl
          | true =>
            have : c ∈ l.filter (fun c => c.removed == 0) := List.mem_filter.mpr ⟨hcl, hb⟩
            rw [hnil] at this
            simp at this
        rw [hco]
        simp
      rw [List.map_congr_left hid, List.map_id]
    · simp [hz]
    · rw [p2]
      simp [hz]
  · rw [if_neg hz]
    refine ⟨?_, ?_, rfl, ?_⟩
    · rw [b1, p1]
    · rw [b2, hfact, hentry]
      simp [hz]
    · rw [b3, hfact, hdfree, p2]
      simp [hz]

theorem compileChr_removed (c : Chr) : (compileChr c).1.removed = c.removed := rfl

theorem compile_no_delete (l : List Chr) :
    ∀ c ∈ (Service.compile l).1, ¬ c.removed = NIMBLE_ATT_REMOVE_DELETE := by
  intro c hc
  rw [(Service.compile_spec l).1] at hc
  obtain ⟨c0, hc0, rfl⟩ := List.mem_map.mp hc
  have hkeep := List.of_mem_filter hc0
  have hne : ¬ c0.removed = NIMBLE_ATT_REMOVE_DELETE := by simpa using hkeep
  cases hb : (c0.removed == 0) with
  | true =>
    simp only [hb, if_true]
    rw [compileChr_removed]
    exact hne
  | false =>
    simp only [hb, Bool.false_eq_true, if_false]
    exact hne

theorem Service.start_true_spec (svc : ServiceState) :
    (Service.start true svc).1.chrVec = (Service.compile svc.chrVec).1 ∧
    (Service.start true svc).1.removed = svc.removed ∧
    (Service.start true svc).1.id = svc.id ∧
    (Service.start true svc).1.svcDef = some (Service.compile svc.chrVec).2.1 ∧
    (Service.start true svc).2.1 = (Service.compile svc.chrVec).2.2 := by
  unfold Service.start
  cases hdef : svc.svcDef with
  | none => simp [hdef]
  | some d => simp [hdef]

/-- Claim C3 counterexample: compiling a service whose collection holds a
Hidden characteristic owning a PendingDelete descriptor (and one Active
characteristic) leaves that PendingDelete descriptor in the owning
collection: the compile neither frees nor erases it, while the claim
requires every PendingDelete descriptor to be freed and erased. -/
theorem C3_counterexample :
    (Service.compile
        [{ id := 1, uuid := 50, removed := 1, dscVec := [{ id := 10, uuid := 60, removed := 2 }] },
         { id := 2, uuid := 70, removed := 0, dscVec := [] }]).1
      = [{ id := 1, uuid := 50, removed := 1, dscVec := [{ id := 10, uuid := 60, removed := 2 }] },
         { id := 2, uuid := 70, removed := 0, dscVec := [] }] ∧
    ((Service.compile
        [{ id := 1, uuid := 50, removed := 1, dscVec := [{ id := 10, uuid := 60, removed := 2 }] },
         { id := 2, uuid := 70, removed := 0, dscVec := [] }]).1.any
      (fun c => c.dscVec.any (fun d => d.removed == NIMBLE_ATT_REMOVE_DELETE))) = true := by
  decide

/-- Claim C3 (amended): the table compile performed by Service::start
frees and erases every PendingDelete characteristic from the owning
collection, keeps every Hidden characteristic (and every descriptor of a
Hidden characteristic) in its collection while omitting it from the
flattened array handed to the host stack, and terminates the flattened
characteristic and descriptor arrays with a sentinel (null-uuid) entry
after the last real entry, the service array ending with a zero-type
entry; but PendingDelete descriptors are freed and erased only from the
collections of Active characteristics that take part in the build -- the
descriptors of Hidden characteristics are left untouched, and no
descriptor purge happens at all when no visible characteristic remains. -/
theorem C3_compile (l : List Chr) :
    (∀ c ∈ (Service.compile l).1, c.removed ≠ NIMBLE_ATT_REMOVE_DELETE) ∧
    ((Service.compile l).2.2
      = (l.filter (fun c => c.removed == NIMBLE_ATT_REMOVE_DELETE)).map Chr.id
        ++ (if (l.filter (fun c => c.removed == 0)).length == 0 then []
            else ((l.filter (fun c => c.removed == 0)).map
              (fun c => (c.dscVec.filter
                (fun d => d.removed == NIMBLE_ATT_REMOVE_DELETE)).map Dsc.id)).flatten)) ∧
    (∀ c ∈ l, c.removed = NIMBLE_ATT_REMOVE_HIDE → c ∈ (Service.compile l).1) ∧
    (∀ c ∈ (Service.compile l).1, c.removed = 0 →
      ∀ d ∈ c.dscVec, d.removed ≠ NIMBLE_ATT_REMOVE_DELETE) ∧
    ((Service.compile l).2.1.characteristics
      = (if (l.filter (fun c => c.removed == 0)).length == 0 then none
         else some ((l.filter (fun c => c.removed == 0)).map chrEntrySpec ++ [chrSentinel]))) ∧
    (Service.compile l).2.1.endType = 0 := by
  obtain ⟨s1, s2, s3, s4⟩ := Service.compile_spec l
  refine ⟨compile_no_delete l, s4, ?_, ?_, s2, s3⟩
  · intro c hcl hhide
    rw [s1]
    have hmm : c ∈ l.filter (fun c => !(c.removed == NIMBLE_ATT_REMOVE_DELETE)) :=
      List.mem_filter.mpr
        ⟨hcl, by simp [hhide, NIMBLE_ATT_REMOVE_HIDE, NIMBLE_ATT_REMOVE_DELETE]⟩
    have hfix : (if c.removed == 0 then (compileChr c).1 else c) = c := by
      simp [hhide, NIMBLE_ATT_REMOVE_HIDE]
    exact List.mem_map.mpr ⟨c, hmm, hfix⟩
  · intro c hc h0 d hd
    rw [s1] at hc
    obtain ⟨c0, hc0, rfl⟩ := List.mem_map.mp hc
    cases hb : (c0.removed == 0) with
    | true =>
      rw [hb] at h0 hd
      simp only [if_true] at hd
      rw [(compileChr_spec c0).1] at hd
      simp only at hd
      have := List.of_mem_filter hd
      simpa using this
    | false =>
      rw [hb] at h0
      simp only [Bool.false_eq_true, if_false] at h0
      simp [h0] at hb

/-- Claim C3 witness: the amended theorem applied to a concrete service
with one Hidden characteristic (kept, with its hidden descriptor) and one
Active characteristic (whose PendingDelete descriptor is purged),
discharging the membership and tag hypotheses there. -/
theorem C3_compile_witness :
    ({ id := 1, uuid := 50, removed := 1, dscVec := [{ id := 10, uuid := 60, removed := 1 }] } : Chr)
      ∈ (Service.compile
          [{ id := 1, uuid := 50, removed := 1,
             dscVec := [{ id := 10, uuid := 60, removed := 1 }] },
           { id := 2, uuid := 70, removed := 0,
             dscVec := [{ id := 11, uuid := 61, removed := 2 }, { id := 12, uuid := 62, removed := 0 }] }]).1 ∧
    ¬ ({ id := 12, uuid := 62, removed := 0 } : Dsc).removed = NIMBLE_ATT_REMOVE_DELETE ∧
    (Service.compile
        [{ id := 1, uuid := 50, removed := 1,
           dscVec := [{ id := 10, uuid := 60, removed := 1 }] },
         { id := 2, uuid := 70, removed := 0,
           dscVec := [{ id := 11, uuid := 61, removed := 2 }, { id := 12, uuid := 62, removed := 0 }] }]).2.1.endType
      = 0 := by
  have h := C3_compile
    [{ id := 1, uuid := 50, removed := 1,
       dscVec := [{ id := 10, uuid := 60, removed := 1 }] },
     { id := 2, uuid := 70, removed := 0,
       dscVec := [{ id := 11, uuid := 61, removed := 2 }, { id := 12, uuid := 62, removed := 0 }] }]
  refine ⟨?_, ?_, h.2.2.2.2.2⟩
  · exact h.2.2.1 _ (by decide) (by decide)
  · exact h.2.2.2.1 ⟨2, 70, 0, [⟨12, 62, 0⟩]⟩ (by decide) (by decide) _ (by decide)

theorem resetGATT_connected (s : ServerState) (h : s.connectedPeers ≠ []) :
    Server.resetGATT s = s := by
  unfold Server.resetGATT
  rw [if_pos (List.length_pos.mpr h)]

theorem serviceChanged_connected (s : ServerState) (h : s.connectedPeers ≠ []) :
    Server.serviceChanged s
      = if s.gattsStarted then { s with svcChanged := true } else s := by
  unfold Server.serviceChanged
  by_cases hg : s.gattsStarted
  · rw [if_pos hg, if_pos hg]
    exact resetGATT_connected { s with svcChanged := true } h
  · rw [if_neg hg, if_neg hg]

theorem svcRemove_svcDef (svc : ServiceState) (chrId : Nat) (del : Bool) :
    ((Service.removeCharacteristic svc chrId del).1).svcDef = svc.svcDef := by
  unfold Service.removeCharacteristic
  cases hf : svc.chrVec.find? (fun c => c.id == chrId) with
  | none => rfl
  | some c =>
    by_cases hr : c.removed > 0
    · cases del
      · simp [hr]
      · simp [hr]
    · simp [hr]

theorem svcRemove_freed_nodelete (svc : ServiceState) (chrId : Nat) :
    (Service.removeCharacteristic svc chrId false).2.1 = [] := by
  unfold Service.removeCharacteristic
  cases hf : svc.chrVec.find? (fun c => c.id == chrId) with
  | none => rfl
  | some c =>
    by_cases hr : c.removed > 0
    · simp [hr]
    · simp [hr]

theorem svcRemove_freed_active (svc : ServiceState) (chrId : Nat) (del : Bool)
    (h : ∀ c ∈ svc.chrVec, c.id = chrId → c.removed = 0) :
    (Service.removeCharacteristic svc chrId del).2.1 = [] := by
  unfold Service.removeCharacteristic
  cases hf : svc.chrVec.find? (fun c => c.id == chrId) with
  | none => rfl
  | some c =>
    have hmem := List.mem_of_find?_eq_some hf
    have hp := List.find?_some hf
    have hid : c.id = chrId := by simpa using hp
    have h0 : c.removed = 0 := h c hmem hid
    have hr : ¬ c.removed > 0 := by omega
    simp [hr]

theorem removeChrInSvcs_spec (svcId chrId : Nat) (del : Bool) (l : List ServiceState) :
    ((removeChrInSvcs svcId chrId del l).1.map ServiceState.svcDef
      = l.map ServiceState.svcDef) ∧
    (del = false → (removeChrInSvcs svcId chrId del l).2.1 = []) ∧
    ((∀ svc ∈ l, ∀ c ∈ svc.chrVec, c.id = chrId → c.removed = 0) →
      (removeChrInSvcs svcId chrId del l).2.1 = []) := by
  induction l with
  | nil => exact ⟨rfl, fun _ => rfl, fun _ => rfl⟩
  | cons svc rest ih =>
    obtain ⟨ih1, ih2, ih3⟩ := ih
    cases hs : (svc.id == svcId) with
    | true =>
      refine ⟨?_, ?_, ?_⟩
      · simp [removeChrInSvcs, hs, svcRemove_svcDef]
      · intro hdel
        subst hdel
        simp [removeChrInSvcs, hs, svcRemove_freed_nodelete]
      · intro hall
        simp only [removeChrInSvcs, hs, if_true]
        exact svcRemove_freed_active svc chrId del (hall svc (List.mem_cons_self _ _))
    | false =>
      refine ⟨?_, ?_, ?_⟩
      · simp [removeChrInSvcs, hs, ih1]
      · intro hdel
        simp [removeChrInSvcs, hs, ih2 hdel]
      · intro hall
        have := ih3 (fun sv hsv => hall sv (List.mem_cons_of_mem _ hsv))
        simp [removeChrInSvcs, hs, this]

theorem resetSvcLoop_regs (b : Bool) (l : List ServiceState) :
    (resetSvcLoop b l).2.2 = l.countP (fun svc => svc.removed == 0) := by
  induction l with
  | nil => rfl
  | cons svc rest ih =>
    by_cases h0 : svc.removed = 0
    · simp [resetSvcLoop, h0, List.countP_cons, ih]
    · have hpos : svc.removed > 0 := Nat.pos_of_ne_zero h0
      by_cases h2 : svc.removed = 2
      · simp [resetSvcLoop, h0, h2, hpos, NIMBLE_ATT_REMOVE_DELETE, List.countP_cons, ih]
      · simp [resetSvcLoop, h0, h2, hpos, NIMBLE_ATT_REMOVE_DELETE, List.countP_cons, ih]

theorem resetSvcLoop_no_delete (l : List ServiceState) :
    ∀ svc ∈ (resetSvcLoop true l).1, svc.removed = 0 →
      ∀ c ∈ svc.chrVec, ¬ c.removed = NIMBLE_ATT_REMOVE_DELETE := by
  induction l with
  | nil =>
    intro svc h
    simp [resetSvcLoop] at h
  | cons s0 rest ih =>
    intro svc hmem hact c hc
    by_cases h0 : s0.removed = 0
    · have hsh : (resetSvcLoop true (s0 :: rest)).1
          = (Service.start true s0).1 :: (resetSvcLoop true rest).1 := by
        simp [resetSvcLoop, h0]
      rw [hsh] at hmem
      rcases List.mem_cons.mp hmem with heq | htail
      · subst heq
        rw [(Service.start_true_spec s0).1] at hc
        exact compile_no_delete s0.chrVec c hc
      · exact ih svc htail hact c hc
    · have hpos : s0.removed > 0 := Nat.pos_of_ne_zero h0
      by_cases h2 : s0.removed = 2
      · have hsh : (resetSvcLoop true (s0 :: rest)).1 = (resetSvcLoop true rest).1 := by
          simp [resetSvcLoop, hpos, h2, NIMBLE_ATT_REMOVE_DELETE]
        rw [hsh] at hmem
        exact ih svc hmem hact c hc
      · have hsh : (resetSvcLoop true (s0 :: rest)).1 = s0 :: (resetSvcLoop true rest).1 := by
          simp [resetSvcLoop, hpos, h2, NIMBLE_ATT_REMOVE_DELETE]
        rw [hsh] at hmem
        rcases List.mem_cons.mp hmem with heq | htail
        · subst heq
          exact absurd hact h0
        · exact ih svc htail hact c hc

theorem serverRemove_preserves (s : ServerState) (svcId chrId : Nat) (del : Bool)
    (hconn : s.connectedPeers ≠ [])
    (hfreed : (removeChrInSvcs svcId chrId del s.svcVec).2.1 = []) :
    (Server.removeCharacteristic s svcId chrId del).freed = s.freed ∧
    (Server.removeCharacteristic s svcId chrId del).registrations = s.registrations ∧
    (Server.removeCharacteristic s svcId chrId del).svcVec.map ServiceState.svcDef
      = s.svcVec.map ServiceState.svcDef := by
  have hmap := (removeChrInSvcs_spec svcId chrId del s.svcVec).1
  have hlen : 0 < s.connectedPeers.length := List.length_pos.mpr hconn
  unfold Server.removeCharacteristic Server.serviceChanged Server.resetGATT
  cases hch : (removeChrInSvcs svcId chrId del s.svcVec).2.2 <;>
    cases hg : s.gattsStarted <;>
      simp [hch, hg, hfreed, hlen, hmap]

/-- Claim C2 counterexample: with one peer still connected (handle 5) and
a characteristic already Hidden, a repeated Service::removeCharacteristic
call with deleteChr = true erases the characteristic object and frees it
immediately (the freed log gains its id while the connected-peer set is
still nonempty), while the claim requires that no operation physically
frees the object while any peer is connected. -/
theorem C2_counterexample :
    (Server.removeCharacteristic
      ⟨true, true, [5], [], [⟨0, 0, [⟨1, 100, 1, []⟩], none⟩], [], 0⟩ 0 1 true).freed = [1] ∧
    (Server.removeCharacteristic
      ⟨true, true, [5], [], [⟨0, 0, [⟨1, 100, 1, []⟩], none⟩], [], 0⟩ 0 1 true).connectedPeers
      = [5] ∧
    (Server.removeCharacteristic
      ⟨true, true, [5], [], [⟨0, 0, [⟨1, 100, 1, []⟩], none⟩], [], 0⟩ 0 1 true).svcVec
      = [⟨0, 0, [], none⟩] := by
  decide

/-- Claim C2 (amended): for a characteristic whose tag is Hidden or
PendingDelete, while the connected-peer set is nonempty the GATT reset is
a no-op, a serviceChanged signal frees nothing and neither recompiles nor
re-registers the table, a first removeCharacteristic call (hide, or
delete of a still-Active characteristic) frees nothing and leaves every
compiled table untouched, and the deferred reset is performed when the
last connected peer disconnects (the change flag clears, one registration
round per active service runs, and every active service has its
PendingDelete characteristics purged); however -- unlike the original
claim -- a repeated removeCharacteristic call with delete requested frees
the characteristic object immediately even while peers are connected. -/
theorem C2_removal_gating (s : ServerState) (svcId chrId c0 : Nat)
    (hconn : s.connectedPeers ≠ []) :
    Server.resetGATT s = s ∧
    (Server.serviceChanged s).freed = s.freed ∧
    (Server.serviceChanged s).registrations = s.registrations ∧
    (Server.serviceChanged s).svcVec.map ServiceState.svcDef
      = s.svcVec.map ServiceState.svcDef ∧
    (Server.removeCharacteristic s svcId chrId false).freed = s.freed ∧
    (Server.removeCharacteristic s svcId chrId false).registrations = s.registrations ∧
    (Server.removeCharacteristic s svcId chrId false).svcVec.map ServiceState.svcDef
      = s.svcVec.map ServiceState.svcDef ∧
    ((∀ svc ∈ s.svcVec, ∀ c ∈ svc.chrVec, c.id = chrId → c.removed = 0) →
      (Server.removeCharacteristic s svcId chrId true).freed = s.freed ∧
      (Server.removeCharacteristic s svcId chrId true).registrations = s.registrations) ∧
    (s.connectedPeers = [c0] → s.svcChanged = true →
      (Server.handleDisconnect s c0).svcChanged = false ∧
      (Server.handleDisconnect s c0).registrations
        = s.registrations + s.svcVec.countP (fun svc => svc.removed == 0) ∧
      (∀ svc ∈ (Server.handleDisconnect s c0).svcVec, svc.removed = 0 →
        ∀ c ∈ svc.chrVec, ¬ c.removed = NIMBLE_ATT_REMOVE_DELETE)) := by
  have hsc : Server.serviceChanged s
      = if s.gattsStarted then { s with svcChanged := true } else s :=
    serviceChanged_connected s hconn
  have hrm := serverRemove_preserves s svcId chrId false hconn
    ((removeChrInSvcs_spec svcId chrId false s.svcVec).2.1 rfl)
  refine ⟨resetGATT_connected s hconn, ?_, ?_, ?_, hrm.1, hrm.2.1, hrm.2.2, ?_, ?_⟩
  · rw [hsc]
    cases hg : s.gattsStarted <;> simp [hg]
  · rw [hsc]
    cases hg : s.gattsStarted <;> simp [hg]
  · rw [hsc]
    cases hg : s.gattsStarted <;> simp [hg]
  · intro hall
    have h := serverRemove_preserves s svcId chrId true hconn
      ((removeChrInSvcs_spec svcId chrId true s.svcVec).2.2 hall)
    exact ⟨h.1, h.2.1⟩
  · intro hpeers hchg
    have hfilter : s.connectedPeers.filter (fun h => !(h == c0)) = [] := by
      rw [hpeers]
      simp
    have hstep : Server.handleDisconnect s c0
        = Server.resetGATT { s with connectedPeers := [] } := by
      unfold Server.handleDisconnect
      rw [hfilter]
      simp [hchg]
    have hloop : Server.resetGATT { s with connectedPeers := [] }
        = { s with connectedPeers := [],
                   svcVec := (resetSvcLoop true s.svcVec).1,
                   freed := s.freed ++ (resetSvcLoop true s.svcVec).2.1,
                   registrations := s.registrations + (resetSvcLoop true s.svcVec).2.2,
                   svcChanged := false,
                   gattsStarted := false } := by
      unfold Server.resetGATT
      simp [hchg]
    rw [hstep, hloop]
    refine ⟨rfl, ?_, ?_⟩
    · simp [resetSvcLoop_regs]
    · intro svc hmem hact c hc
      simp only at hmem
      exact resetSvcLoop_no_delete s.svcVec svc hmem hact c hc

/-- Claim C2 witness: the amended theorem applied to a started server
with one connected peer (handle 5), one active service holding one Active
characteristic, discharging the connectivity, tag and last-disconnect
hypotheses at those concrete values. -/
theorem C2_removal_gating_witness :
    Server.resetGATT ⟨true, true, [5], [], [⟨0, 0, [⟨1, 100, 0, []⟩], none⟩], [], 0⟩
      = ⟨true, true, [5], [], [⟨0, 0, [⟨1, 100, 0, []⟩], none⟩], [], 0⟩ ∧
    (Server.removeCharacteristic
      ⟨true, true, [5], [], [⟨0, 0, [⟨1, 100, 0, []⟩], none⟩], [], 0⟩ 0 1 false).freed = [] ∧
    (Server.removeCharacteristic
      ⟨true, true, [5], [], [⟨0, 0, [⟨1, 100, 0, []⟩], none⟩], [], 0⟩ 0 1 true).freed = [] ∧
    (Server.handleDisconnect
      ⟨true, true, [5], [], [⟨0, 0, [⟨1, 100, 0, []⟩], none⟩], [], 0⟩ 5).svcChanged = false ∧
    (Server.handleDisconnect
      ⟨true, true, [5], [], [⟨0, 0, [⟨1, 100, 0, []⟩], none⟩], [], 0⟩ 5).registrations = 1 := by
  have h := C2_removal_gating
    ⟨true, true, [5], [], [⟨0, 0, [⟨1, 100, 0, []⟩], none⟩], [], 0⟩ 0 1 5 (by decide)
  have hd := h.2.2.2.2.2.2.2.2 (by decide) (by decide)
  have hr := h.2.2.2.2.2.2.2.1 (by decide)
  exact ⟨h.1, by simpa using h.2.2.2.2.1, by simpa using hr.1, hd.1, by simpa using hd.2.1⟩
